import Mathlib

/-!
Verification of the Prism metric adapter
(`jury/metrics/prism/prism_for_language_generation.py`).

The file shallowly embeds the reduction/aggregation core of the adapter:
model-source resolution (`_download_model`), lazy scorer construction
(`_load_scorer`), score normalization (`_normalize_score`) and the three
compute modes (`_compute_single_pred_single_ref`,
`_compute_single_pred_multi_ref`, `_compute_multi_pred_multi_ref`).

The external Prism scorer is opaque in the source (it is fetched at run
time), so it is modelled as an abstract record of score functions plus its
metadata.  Scores are Python floats in the source; here they live in an
arbitrary field `K`, which keeps all definitions executable: witnesses
instantiate `K := ℚ`, while statements about the actual float
exponentiation `**` instantiate `K := ℝ` together with real `rpow` for the
`powf` parameter that stands for Python's `**` operator.

Fallible Python code (raised exceptions: `ValueError` for a bad model
source, `ZeroDivisionError` for `sum(scores)/len(scores)` on an empty
batch) is embedded with `Except`.
-/

namespace PrismGen

/-- The dictionary returned by `scorer.identifier()` (see the docstring
example in the source: version, model, seg_scores, sys_scores, log_base,
temperature). -/
structure PrismIdentifier (K : Type) where
  version : String
  model : String
  seg_scores : String
  sys_scores : String
  log_base : K
  temperature : K
  deriving DecidableEq

/-- The opaque external scorer (`Prism(model_dir, lang, temperature)` from
the dynamically fetched module).  `segScore cand ref` is
`scorer.score(ref=ref, cand=cand, segment_scores=True).tolist()`;
`corpusScore cand ref` is the scalar returned with `segment_scores=False`. -/
structure Prism (K : Type) where
  segScore : List String → List String → List K
  corpusScore : List String → List String → K
  identifier : PrismIdentifier K

/-- The mutable attributes of a `PrismForLanguageGeneration` object that the
modelled methods read or write (`__init__` lines 110-114). -/
structure PrismMetric (K : Type) where
  model_path_or_url : Option String
  lang : String
  temperature : K
  model_dir : Option String
  scorer : Option (Prism K)

/-- The exceptions the modelled methods can raise: `ValueError`
(the spec's `InvalidArgument`) from `_download_model`, and
`ZeroDivisionError` from `sum(scores) / len(scores)` on an empty list. -/
inductive PrismError where
  | invalidArgument
  | zeroDivision
  deriving DecidableEq

/-- A score value: Python returns either a float or a list of floats. -/
inductive ScoreVal (K : Type) where
  | scalar : K → ScoreVal K
  | seq : List K → ScoreVal K
  deriving DecidableEq

/-- The result dictionary every compute mode returns. -/
structure PrismResult (K : Type) where
  score : ScoreVal K
  identifier : Option (PrismIdentifier K)
  model_path_or_url : Option String
  lang : String
  segment_scores : Bool
  normalized : Bool
  deriving DecidableEq

/-- Default model URL substituted for a missing `model_path_or_url`
(line 124). -/
def default_model_url : String := "http://data.statmt.org/prism/m39v1.tar"

/-- `os.path.basename` for the slash-separated paths the code handles. -/
def basename (p : String) : String := (p.splitOn "/").getLastD p

/-- `_download_model` (lines 122-136).  `isdir` and `isUrl` model
`os.path.isdir` and `validators.url`; `dl` models
`dl_manager.download_and_extract`. -/
def download_model {K : Type} (isdir isUrl : String → Bool) (dl : String → String)
    (st : PrismMetric K) : Except PrismError (PrismMetric K) :=
  let src := st.model_path_or_url.getD default_model_url
  let st1 : PrismMetric K := { st with model_path_or_url := some src }
  if !(isdir src) && !(isUrl src) then
    .error .invalidArgument
  else if isdir src then
    .ok { st1 with model_dir := some src }
  else if !(src.endsWith ".tar") then
    .error .invalidArgument
  else
    .ok { st1 with model_dir := some (dl src ++ "/" ++ (basename src).replace ".tar" "") }

/-- `_load_scorer` (lines 167-170): constructs the scorer only when the
`scorer` attribute is still `None`.  `mk` models the external `Prism`
constructor; the function returns the scorer in use after the call,
together with the updated object state. -/
def load_scorer {K : Type} (mk : Option String → String → K → Prism K)
    (st : PrismMetric K) : Prism K × PrismMetric K :=
  match st.scorer with
  | some s => (s, st)
  | none =>
    let s := mk st.model_dir st.lang st.temperature
    (s, { st with scorer := some s })

/-- The `model_identifier` property (lines 117-120): `None` until a scorer
exists. -/
def model_identifier {K : Type} (st : PrismMetric K) : Option (PrismIdentifier K) :=
  st.scorer.map Prism.identifier

/-- `_compute_prism_score` (lines 172-183) after the scorer is loaded:
with `segment_scores=True` the scorer's array is turned into a list,
otherwise the scalar is returned. -/
def compute_prism_score {K : Type} (scorer : Prism K)
    (predictions references : List String) (segment_scores : Bool) : ScoreVal K :=
  if segment_scores then .seq (scorer.segScore predictions references)
  else .scalar (scorer.corpusScore predictions references)

/-- `_normalize_score` (lines 185-189): `exponent ** score`, elementwise on
lists.  `powf b s` stands for Python's `b ** s`. -/
def normalize_score {K : Type} (powf : K → K → K) :
    ScoreVal K → K → ScoreVal K
  | .scalar s, exponent => .scalar (powf exponent s)
  | .seq l, exponent => .seq (l.map fun s => powf exponent s)

/-- `_compute_single_pred_single_ref` (lines 191-211).  Note that
`reduce_fn` is accepted (default `None`) but never read. -/
def compute_single_pred_single_ref {K : Type}
    (mk : Option String → String → K → Prism K) (powf : K → K → K)
    (reduce_fn : Option (List K → K)) (segment_scores normalize : Bool)
    (predictions references : List String) (st : PrismMetric K) :
    Except PrismError (PrismResult K × PrismMetric K) :=
  let ls := load_scorer mk st
  let score := compute_prism_score ls.1 predictions references segment_scores
  let score :=
    if normalize then normalize_score powf score ls.1.identifier.log_base else score
  .ok ({ score := score
         identifier := model_identifier ls.2
         model_path_or_url := ls.2.model_path_or_url
         lang := ls.2.lang
         segment_scores := segment_scores
         normalized := normalize }, ls.2)

/-- `_compute_single_pred_multi_ref` (lines 213-243): per item, the single
prediction is broadcast over the item's references, scored in segment mode
and collapsed by `reduce_fn`; without `segment_scores` the per-item scalars
are averaged (`ZeroDivisionError` when the batch is empty); normalization
comes last. -/
def compute_single_pred_multi_ref {K : Type} [Field K]
    (mk : Option String → String → K → Prism K) (powf : K → K → K)
    (reduce_fn : List K → K) (segment_scores normalize : Bool)
    (predictions : List String) (references : List (List String))
    (st : PrismMetric K) : Except PrismError (PrismResult K × PrismMetric K) :=
  let ls := load_scorer mk st
  let scores : List K := (predictions.zip references).map fun pr =>
    reduce_fn (ls.1.segScore (List.replicate pr.2.length pr.1) pr.2)
  let agg : Except PrismError (ScoreVal K) :=
    if segment_scores then .ok (.seq scores)
    else if scores.length = 0 then .error .zeroDivision
    else .ok (.scalar (scores.sum / (scores.length : K)))
  agg.map fun sc =>
    ({ score := if normalize then normalize_score powf sc ls.1.identifier.log_base else sc
       identifier := model_identifier ls.2
       model_path_or_url := ls.2.model_path_or_url
       lang := ls.2.lang
       segment_scores := segment_scores
       normalized := normalize }, ls.2)

/-- `_compute_multi_pred_multi_ref` (lines 245-281): per item, each
candidate is broadcast over the item's references and reduced, then the
per-candidate scalars are reduced again by the same `reduce_fn`;
aggregation and normalization as in the single-prediction mode. -/
def compute_multi_pred_multi_ref {K : Type} [Field K]
    (mk : Option String → String → K → Prism K) (powf : K → K → K)
    (reduce_fn : List K → K) (segment_scores normalize : Bool)
    (predictions references : List (List String))
    (st : PrismMetric K) : Except PrismError (PrismResult K × PrismMetric K) :=
  let ls := load_scorer mk st
  let scores : List K := (predictions.zip references).map fun pr =>
    reduce_fn (pr.1.map fun pred =>
      reduce_fn (ls.1.segScore (List.replicate pr.2.length pred) pr.2))
  let agg : Except PrismError (ScoreVal K) :=
    if segment_scores then .ok (.seq scores)
    else if scores.length = 0 then .error .zeroDivision
    else .ok (.scalar (scores.sum / (scores.length : K)))
  agg.map fun sc =>
    ({ score := if normalize then normalize_score powf sc ls.1.identifier.log_base else sc
       identifier := model_identifier ls.2
       model_path_or_url := ls.2.model_path_or_url
       lang := ls.2.lang
       segment_scores := segment_scores
       normalized := normalize }, ls.2)

/-- The framework calls `_download_and_prepare` (which resolves the model
source) before any compute mode runs; this composition captures that
sequencing for the single-pred/multi-ref mode. -/
def setup_then_compute_single_pred_multi_ref {K : Type} [Field K]
    (isdir isUrl : String → Bool) (dl : String → String)
    (mk : Option String → String → K → Prism K) (powf : K → K → K)
    (reduce_fn : List K → K) (segment_scores normalize : Bool)
    (predictions : List String) (references : List (List String))
    (st : PrismMetric K) : Except PrismError (PrismResult K × PrismMetric K) :=
  (download_model isdir isUrl dl st).bind fun st1 =>
    compute_single_pred_multi_ref mk powf reduce_fn segment_scores normalize
      predictions references st1

/-- The score field of a successful computation, for stating concrete
evaluations compactly. -/
def score_of {K : Type} (e : Except PrismError (PrismResult K × PrismMetric K)) :
    Option (ScoreVal K) :=
  e.toOption.map fun p => p.1.score

/-! ### Concrete fixtures used by witnesses -/

/-- A concrete scorer constructor over `ℚ` used to instantiate theorems. -/
def mkTest : Option String → String → ℚ → Prism ℚ := fun _ _ t =>
  { segScore := fun cand ref =>
      (cand.zip ref).map fun pr => (pr.1.length : ℚ) - (pr.2.length : ℚ)
    corpusScore := fun cand ref => (cand.length : ℚ) - (ref.length : ℚ)
    identifier := { version := "0.1", model := "m39v1", seg_scores := "avg_log_prob",
                    sys_scores := "avg_log_prob", log_base := 2, temperature := t } }

/-- A concrete stand-in for the `**` operator over `ℚ`. -/
def powTest : ℚ → ℚ → ℚ := fun b s => b * s + 1

/-- A freshly constructed metric state (no scorer yet). -/
def stTest : PrismMetric ℚ :=
  { model_path_or_url := some "model_dir", lang := "en", temperature := 1,
    model_dir := some "model_dir", scorer := none }

/-! ### Basic facts about the lazy scorer loader -/

theorem load_scorer_scorer_eq {K : Type} (mk : Option String → String → K → Prism K)
    (st : PrismMetric K) : (load_scorer mk st).2.scorer = some (load_scorer mk st).1 := by
  rcases st with ⟨mpu, lg, tp, md, sc⟩
  cases sc <;> rfl

theorem load_scorer_model_path {K : Type} (mk : Option String → String → K → Prism K)
    (st : PrismMetric K) : (load_scorer mk st).2.model_path_or_url = st.model_path_or_url := by
  rcases st with ⟨mpu, lg, tp, md, sc⟩
  cases sc <;> rfl

theorem load_scorer_lang {K : Type} (mk : Option String → String → K → Prism K)
    (st : PrismMetric K) : (load_scorer mk st).2.lang = st.lang := by
  rcases st with ⟨mpu, lg, tp, md, sc⟩
  cases sc <;> rfl

/-! ### C1 -/

/-- C1: in single-pred/multi-ref mode, the per-item scalar at every index
`i` of the zipped predictions/references equals `reduce_fn` applied to the
per-reference segment scores of the single prediction broadcast once per
reference of item `i`. -/
theorem spmr_item_is_reduce_of_broadcast {K : Type} [Field K]
    (mk : Option String → String → K → Prism K) (powf : K → K → K)
    (reduce_fn : List K → K)
    (predictions : List String) (references : List (List String))
    (st : PrismMetric K) (i : ℕ) (hi : i < (predictions.zip references).length) :
    ∃ r st', compute_single_pred_multi_ref mk powf reduce_fn true false
        predictions references st = .ok (r, st') ∧
      ∃ l, r.score = .seq l ∧
        l[i]? = some (reduce_fn ((load_scorer mk st).1.segScore
          (List.replicate (predictions.zip references)[i].2.length
            (predictions.zip references)[i].1)
          (predictions.zip references)[i].2)) := by
  refine ⟨_, _, rfl, _, rfl, ?_⟩
  simp only [List.getElem?_map, List.getElem?_eq_getElem hi, Option.map_some']

/-- Witness for C1 at a concrete input. -/
theorem spmr_item_is_reduce_of_broadcast_witness :
    ∃ r st', compute_single_pred_multi_ref mkTest powTest List.sum true false
        ["p"] [["r1", "r2"]] stTest = .ok (r, st') ∧
      ∃ l, r.score = ScoreVal.seq l ∧
        l[0]? = some (List.sum ((load_scorer mkTest stTest).1.segScore
          ["p", "p"] ["r1", "r2"])) := by
  have h := spmr_item_is_reduce_of_broadcast mkTest powTest List.sum
    ["p"] [["r1", "r2"]] stTest 0 (by decide)
  simpa [List.replicate] using h

/-! ### C2 -/

/-- C2: in multi-pred/multi-ref mode, the per-item scalar at every index
`i` equals `reduce_fn` applied to the per-candidate scalars, each of which
is `reduce_fn` applied to the per-reference segment scores of that
candidate broadcast against the references of item `i`; both levels use
the same `reduce_fn`. -/
theorem mpmr_item_two_level_reduce {K : Type} [Field K]
    (mk : Option String → String → K → Prism K) (powf : K → K → K)
    (reduce_fn : List K → K)
    (predictions references : List (List String))
    (st : PrismMetric K) (i : ℕ) (hi : i < (predictions.zip references).length) :
    ∃ r st', compute_multi_pred_multi_ref mk powf reduce_fn true false
        predictions references st = .ok (r, st') ∧
      ∃ l, r.score = .seq l ∧
        l[i]? = some (reduce_fn ((predictions.zip references)[i].1.map fun pred =>
          reduce_fn ((load_scorer mk st).1.segScore
            (List.replicate (predictions.zip references)[i].2.length pred)
            (predictions.zip references)[i].2))) := by
  refine ⟨_, _, rfl, _, rfl, ?_⟩
  simp only [List.getElem?_map, List.getElem?_eq_getElem hi, Option.map_some']

/-- Witness for C2 at a concrete input. -/
theorem mpmr_item_two_level_reduce_witness :
    ∃ r st', compute_multi_pred_multi_ref mkTest powTest List.sum true false
        [["p1", "p2"]] [["r1"]] stTest = .ok (r, st') ∧
      ∃ l, r.score = ScoreVal.seq l ∧
        l[0]? = some (List.sum
          [List.sum ((load_scorer mkTest stTest).1.segScore ["p1"] ["r1"]),
           List.sum ((load_scorer mkTest stTest).1.segScore ["p2"] ["r1"])]) := by
  have h := mpmr_item_two_level_reduce mkTest powTest List.sum
    [["p1", "p2"]] [["r1"]] stTest 0 (by decide)
  simpa [List.replicate] using h

/-! ### C3 -/

theorem zip_map_length_ne_zero {α β γ : Type} (f : α × β → γ) (l1 : List α) (l2 : List β)
    (h1 : l1 ≠ []) (h2 : l2 ≠ []) : ((l1.zip l2).map f).length ≠ 0 := by
  simp [List.length_zip, Nat.min_eq_zero_iff, List.length_eq_zero, h1, h2]

/-- A concrete scorer over `ℝ` whose segment scores distinguish the two
reference sets `["r1"]` and `["r2"]`. -/
def scorerR : Prism ℝ :=
  { segScore := fun _ ref => if ref = ["r1"] then [0] else [2]
    corpusScore := fun _ _ => 0
    identifier := { version := "0.1", model := "m39v1", seg_scores := "avg_log_prob",
                    sys_scores := "avg_log_prob", log_base := 2, temperature := 1 } }

def mkR : Option String → String → ℝ → Prism ℝ := fun _ _ _ => scorerR

/-- A metric state over `ℝ` that already holds `scorerR`. -/
def stR : PrismMetric ℝ :=
  { model_path_or_url := some "model_dir", lang := "en", temperature := 1,
    model_dir := some "model_dir", scorer := some scorerR }

/-- C3 counterexample: with `normalize = true` (an allowed value of "same
normalize flag"), the corpus score (`segment_scores = false`) is
`2 ** mean = 2`, while the mean of the per-item scores returned with
`segment_scores = true` is `(1 + 4) / 2 ≠ 2`; the claimed equality fails. -/
theorem corpus_vs_mean_normalized_counterexample :
    score_of (compute_single_pred_multi_ref mkR (fun b s : ℝ => b ^ s) List.sum false true
      ["p1", "p2"] [["r1"], ["r2"]] stR) = some (ScoreVal.scalar 2) ∧
    score_of (compute_single_pred_multi_ref mkR (fun b s : ℝ => b ^ s) List.sum true true
      ["p1", "p2"] [["r1"], ["r2"]] stR) = some (ScoreVal.seq [1, 4]) ∧
    ((1 : ℝ) + 4) / 2 ≠ 2 := by
  have h0 : (2 : ℝ) ^ (0 : ℝ) = 1 := Real.rpow_zero 2
  have h1 : (2 : ℝ) ^ (1 : ℝ) = 2 := Real.rpow_one 2
  have h2 : (2 : ℝ) ^ (2 : ℝ) = 4 := by
    rw [show (2 : ℝ) = ((2 : ℕ) : ℝ) by norm_num, Real.rpow_natCast]
    norm_num
  have hr : ¬ (("r2" : String) = "r1") := by decide
  refine ⟨?_, ?_, by norm_num⟩ <;>
  · norm_num [compute_single_pred_multi_ref, score_of, mkR, scorerR, stR, load_scorer,
      model_identifier, normalize_score, Except.map, h0, h1, h2, hr]
    exact ⟨_, ⟨_, rfl⟩, rfl⟩

/-- C3 (amended): the corpus score (`segment_scores = false`) equals the
unweighted arithmetic mean of the per-item scores obtained with
`segment_scores = true` whenever normalization is off; with
`normalize = true` the corpus run exponentiates the mean instead of
averaging the exponentiated per-item scores, so the equality fails. -/
theorem corpus_equals_mean_of_segments_unnormalized {K : Type} [Field K]
    (mk : Option String → String → K → Prism K) (powf : K → K → K)
    (reduce_fn : List K → K)
    (preds1 : List String) (refs1 : List (List String))
    (preds2 refs2 : List (List String)) (st : PrismMetric K)
    (hp1 : preds1 ≠ []) (hr1 : refs1 ≠ []) (hp2 : preds2 ≠ []) (hr2 : refs2 ≠ []) :
    (∃ l, score_of (compute_single_pred_multi_ref mk powf reduce_fn true false
          preds1 refs1 st) = some (.seq l) ∧
        score_of (compute_single_pred_multi_ref mk powf reduce_fn false false
          preds1 refs1 st) = some (.scalar (l.sum / (l.length : K)))) ∧
    (∃ l, score_of (compute_multi_pred_multi_ref mk powf reduce_fn true false
          preds2 refs2 st) = some (.seq l) ∧
        score_of (compute_multi_pred_multi_ref mk powf reduce_fn false false
          preds2 refs2 st) = some (.scalar (l.sum / (l.length : K)))) := by
  constructor
  · refine ⟨_, rfl, ?_⟩
    have hne := zip_map_length_ne_zero (fun pr =>
      reduce_fn ((load_scorer mk st).1.segScore (List.replicate pr.2.length pr.1) pr.2))
      preds1 refs1 hp1 hr1
    simp only [compute_single_pred_multi_ref, score_of]
    rw [if_neg hne]
    rfl
  · refine ⟨_, rfl, ?_⟩
    have hne := zip_map_length_ne_zero (fun pr =>
      reduce_fn (pr.1.map fun pred =>
        reduce_fn ((load_scorer mk st).1.segScore (List.replicate pr.2.length pred) pr.2)))
      preds2 refs2 hp2 hr2
    simp only [compute_multi_pred_multi_ref, score_of]
    rw [if_neg hne]
    rfl

/-- Witness for the amended C3 at a concrete input. -/
theorem corpus_equals_mean_of_segments_unnormalized_witness :
    (∃ l, score_of (compute_single_pred_multi_ref mkTest powTest List.sum true false
          ["p"] [["r1", "r2"]] stTest) = some (.seq l) ∧
        score_of (compute_single_pred_multi_ref mkTest powTest List.sum false false
          ["p"] [["r1", "r2"]] stTest) = some (.scalar (l.sum / (l.length : ℚ)))) ∧
    (∃ l, score_of (compute_multi_pred_multi_ref mkTest powTest List.sum true false
          [["p1", "p2"]] [["r1"]] stTest) = some (.seq l) ∧
        score_of (compute_multi_pred_multi_ref mkTest powTest List.sum false false
          [["p1", "p2"]] [["r1"]] stTest) = some (.scalar (l.sum / (l.length : ℚ)))) :=
  corpus_equals_mean_of_segments_unnormalized mkTest powTest List.sum
    ["p"] [["r1", "r2"]] [["p1", "p2"]] [["r1"]] stTest
    (by decide) (by decide) (by decide) (by decide)

/-! ### C4 -/

theorem except_map_map {ε α β γ : Type} (f : α → β) (g : β → γ) (e : Except ε α) :
    (e.map f).map g = e.map (g ∘ f) := by
  cases e <;> rfl

/-- C4: with `normalize = true`, each compute mode returns exactly the
result of the unnormalized run with `base ** score` applied to the final
aggregated scalar (or elementwise to the final per-item sequence), where
the base is the `log_base` entry of the scorer's metadata; in particular
the exponentiation happens after corpus averaging, never before it. -/
theorem normalize_applied_after_aggregation {K : Type} [Field K]
    (mk : Option String → String → K → Prism K) (powf : K → K → K)
    (reduce_fn : List K → K) (seg : Bool)
    (preds1 : List String) (refs1 : List (List String))
    (preds2 refs2 : List (List String)) (st : PrismMetric K) :
    compute_single_pred_multi_ref mk powf reduce_fn seg true preds1 refs1 st =
      (compute_single_pred_multi_ref mk powf reduce_fn seg false preds1 refs1 st).map
        (fun p => ({ p.1 with
            score := normalize_score powf p.1.score (load_scorer mk st).1.identifier.log_base
            normalized := true }, p.2)) ∧
    compute_multi_pred_multi_ref mk powf reduce_fn seg true preds2 refs2 st =
      (compute_multi_pred_multi_ref mk powf reduce_fn seg false preds2 refs2 st).map
        (fun p => ({ p.1 with
            score := normalize_score powf p.1.score (load_scorer mk st).1.identifier.log_base
            normalized := true }, p.2)) := by
  constructor
  · simp only [compute_single_pred_multi_ref]
    rw [except_map_map]
    rfl
  · simp only [compute_multi_pred_multi_ref]
    rw [except_map_map]
    rfl

/-! ### C5 -/

/-- C5 counterexample: in single-pred/single-ref mode a call without a
`reduce_fn` does not fail at all — it returns a result, contradicting the
claimed `InvalidArgument`. -/
theorem spsr_no_reduce_fn_counterexample :
    (compute_single_pred_single_ref mkTest powTest none false false
      ["p"] ["r"] stTest).isOk = true ∧
    compute_single_pred_single_ref mkTest powTest none false false
      ["p"] ["r"] stTest ≠ .error PrismError.invalidArgument :=
  ⟨rfl, by simp [compute_single_pred_single_ref]⟩

/-- C5 (amended): in single-pred/single-ref mode `reduce_fn` is not
required and is ignored entirely — a call with no `reduce_fn` succeeds and
returns exactly what a call with any `reduce_fn` returns. -/
theorem spsr_ignores_absent_reduce_fn {K : Type} [Field K]
    (mk : Option String → String → K → Prism K) (powf : K → K → K)
    (f : List K → K) (seg norm : Bool) (preds refs : List String)
    (st : PrismMetric K) :
    compute_single_pred_single_ref mk powf none seg norm preds refs st =
      compute_single_pred_single_ref mk powf (some f) seg norm preds refs st ∧
    (compute_single_pred_single_ref mk powf none seg norm preds refs st).isOk = true :=
  ⟨rfl, rfl⟩

/-! ### C6 -/

/-- C6: a model source that is neither an existing directory nor a valid
URL, or a valid URL (not an existing directory) that does not end in
`.tar`, makes model resolution fail with `InvalidArgument`; composed with
a compute mode, the whole pipeline fails the same way for every possible
scorer constructor, so the scorer is never invoked. -/
theorem invalid_model_source_errors_before_scoring {K : Type} [Field K]
    (isdir isUrl : String → Bool) (dl : String → String)
    (mk : Option String → String → K → Prism K) (powf : K → K → K)
    (reduce_fn : List K → K) (seg norm : Bool)
    (preds : List String) (refs : List (List String))
    (src : String) (st : PrismMetric K)
    (hsrc : st.model_path_or_url = some src)
    (hbad : (isdir src = false ∧ isUrl src = false) ∨
            (isdir src = false ∧ isUrl src = true ∧ src.endsWith ".tar" = false)) :
    download_model isdir isUrl dl st = .error .invalidArgument ∧
    setup_then_compute_single_pred_multi_ref isdir isUrl dl mk powf reduce_fn
      seg norm preds refs st = .error .invalidArgument := by
  have hdl : download_model isdir isUrl dl st = .error .invalidArgument := by
    rcases hbad with ⟨h1, h2⟩ | ⟨h1, h2, h3⟩ <;>
      simp [download_model, hsrc, h1, h2, *]
  exact ⟨hdl, by simp [setup_then_compute_single_pred_multi_ref, hdl, Except.bind]⟩

/-- Witness for C6 at a concrete input. -/
theorem invalid_model_source_errors_before_scoring_witness :
    download_model (fun _ => false) (fun _ => false) (fun s => s) stTest =
      .error .invalidArgument ∧
    setup_then_compute_single_pred_multi_ref (fun _ => false) (fun _ => false)
      (fun s => s) mkTest powTest List.sum false false ["p"] [["r"]] stTest =
      .error .invalidArgument :=
  invalid_model_source_errors_before_scoring (fun _ => false) (fun _ => false)
    (fun s => s) mkTest powTest List.sum false false ["p"] [["r"]]
    "model_dir" stTest rfl (Or.inl ⟨rfl, rfl⟩)

/-! ### C7 -/

/-- C7 counterexample: normalizing the score `1` with log base `2` yields
`2 ** 1 = 2`, which is not in `(0, 1]`; the code's `_normalize_score` puts
no bound on the score, so the claimed containment fails for positive
scores. -/
theorem normalize_positive_score_exceeds_one :
    normalize_score (fun b s : ℝ => b ^ s) (ScoreVal.scalar 1) 2 = ScoreVal.scalar 2 ∧
    ¬ ((2 : ℝ) ≤ 1) := by
  constructor
  · simp [normalize_score, Real.rpow_one]
  · norm_num

/-- C7 (amended): for a log base `≥ 1` and a nonpositive
(log-probability) score — the situation the spec assumes — the normalized
value `base ** score` does lie in `(0, 1]`. -/
theorem normalize_bounds_nonpositive_score (b s : ℝ) (hb : 1 ≤ b) (hs : s ≤ 0) :
    normalize_score (fun x y : ℝ => x ^ y) (ScoreVal.scalar s) b =
      ScoreVal.scalar (b ^ s) ∧
    0 < b ^ s ∧ b ^ s ≤ 1 :=
  ⟨rfl, Real.rpow_pos_of_pos (lt_of_lt_of_le one_pos hb) s,
    Real.rpow_le_one_of_one_le_of_nonpos hb hs⟩

/-- Witness for the amended C7 at `b = 2`, `s = -1`. -/
theorem normalize_bounds_nonpositive_score_witness :
    normalize_score (fun x y : ℝ => x ^ y) (ScoreVal.scalar (-1)) 2 =
      ScoreVal.scalar ((2 : ℝ) ^ (-1 : ℝ)) ∧
    0 < (2 : ℝ) ^ (-1 : ℝ) ∧ (2 : ℝ) ^ (-1 : ℝ) ≤ 1 :=
  normalize_bounds_nonpositive_score 2 (-1) (by norm_num) (by norm_num)

/-! ### C8 -/

theorem load_scorer_none {K : Type} (mk : Option String → String → K → Prism K)
    (st : PrismMetric K) (h : st.scorer = none) :
    load_scorer mk st = (mk st.model_dir st.lang st.temperature,
      { st with scorer := some (mk st.model_dir st.lang st.temperature) }) := by
  unfold load_scorer
  rw [h]

theorem load_scorer_some {K : Type} (mk : Option String → String → K → Prism K)
    (st : PrismMetric K) (s : Prism K) (h : st.scorer = some s) :
    load_scorer mk st = (s, st) := by
  unfold load_scorer
  rw [h]

theorem except_map_pair_ok {ε α β γ : Type} (e : Except ε α) (g : α → β) (c : γ)
    (r : β) (s : γ) (h : (e.map fun a => (g a, c)) = .ok (r, s)) :
    ∃ a, r = g a ∧ s = c := by
  cases e <;> simp [Except.map] at h
  exact ⟨_, h.1.symm, h.2.symm⟩

/-- C8: the scorer is constructed at most once: when the scorer reference
is unset, `_load_scorer` constructs it; when it is already set, the call
leaves both the reference and the state untouched (idempotence), and every
compute mode ends with the scorer reference produced by that single lazy
load. -/
theorem scorer_loaded_once_and_reused {K : Type} [Field K]
    (mk : Option String → String → K → Prism K) (st : PrismMetric K) :
    (st.scorer = none →
      load_scorer mk st = (mk st.model_dir st.lang st.temperature,
        { st with scorer := some (mk st.model_dir st.lang st.temperature) })) ∧
    (∀ s, st.scorer = some s → load_scorer mk st = (s, st)) ∧
    load_scorer mk (load_scorer mk st).2 =
      ((load_scorer mk st).1, (load_scorer mk st).2) ∧
    (∀ (powf : K → K → K) (rf : Option (List K → K)) (seg norm : Bool)
        (preds refs : List String) r st',
      compute_single_pred_single_ref mk powf rf seg norm preds refs st = .ok (r, st') →
        st'.scorer = some (load_scorer mk st).1) ∧
    (∀ (powf : K → K → K) (rf : List K → K) (seg norm : Bool)
        (preds : List String) (refs : List (List String)) r st',
      compute_single_pred_multi_ref mk powf rf seg norm preds refs st = .ok (r, st') →
        st'.scorer = some (load_scorer mk st).1) ∧
    (∀ (powf : K → K → K) (rf : List K → K) (seg norm : Bool)
        (preds refs : List (List String)) r st',
      compute_multi_pred_multi_ref mk powf rf seg norm preds refs st = .ok (r, st') →
        st'.scorer = some (load_scorer mk st).1) := by
  refine ⟨load_scorer_none mk st, fun s h => load_scorer_some mk st s h,
    load_scorer_some mk _ _ (load_scorer_scorer_eq mk st), ?_, ?_, ?_⟩
  · intro powf rf seg norm preds refs r st' h
    simp only [compute_single_pred_single_ref, Except.ok.injEq, Prod.mk.injEq] at h
    rw [← h.2]
    exact load_scorer_scorer_eq mk st
  · intro powf rf seg norm preds refs r st' h
    simp only [compute_single_pred_multi_ref] at h
    obtain ⟨-, -, hs⟩ := except_map_pair_ok _ _ _ _ _ h
    rw [hs]
    exact load_scorer_scorer_eq mk st
  · intro powf rf seg norm preds refs r st' h
    simp only [compute_multi_pred_multi_ref] at h
    obtain ⟨-, -, hs⟩ := except_map_pair_ok _ _ _ _ _ h
    rw [hs]
    exact load_scorer_scorer_eq mk st

/-- The concrete scorer that `mkTest` constructs, for the C8 witness. -/
def scorerTest : Prism ℚ := mkTest (some "model_dir") "en" 1

/-- Witness for C8: a fresh state gets the constructed scorer, a second
load reuses it, and a state that already holds a scorer is untouched. -/
theorem scorer_loaded_once_and_reused_witness :
    load_scorer mkTest stTest = (scorerTest, { stTest with scorer := some scorerTest }) ∧
    load_scorer mkTest (load_scorer mkTest stTest).2 =
      ((load_scorer mkTest stTest).1, (load_scorer mkTest stTest).2) ∧
    load_scorer mkTest { stTest with scorer := some scorerTest } =
      (scorerTest, { stTest with scorer := some scorerTest }) := by
  refine ⟨(scorer_loaded_once_and_reused mkTest stTest).1 rfl,
    (scorer_loaded_once_and_reused mkTest stTest).2.2.1,
    (scorer_loaded_once_and_reused mkTest
      { stTest with scorer := some scorerTest }).2.1 scorerTest rfl⟩

/-! ### C9 -/

/-- C9: every compute mode returns a record whose `segment_scores` and
`normalized` fields echo the flags passed in and whose
`model_path_or_url` and `lang` fields are the metric object's values,
which the computation leaves unchanged. -/
theorem result_record_fields_frame {K : Type} [Field K]
    (mk : Option String → String → K → Prism K) (powf : K → K → K)
    (seg norm : Bool) (st : PrismMetric K) :
    (∀ (rf : Option (List K → K)) (preds refs : List String) r st',
      compute_single_pred_single_ref mk powf rf seg norm preds refs st = .ok (r, st') →
        r.segment_scores = seg ∧ r.normalized = norm ∧
        r.model_path_or_url = st.model_path_or_url ∧ r.lang = st.lang ∧
        st'.model_path_or_url = st.model_path_or_url ∧ st'.lang = st.lang) ∧
    (∀ (rf : List K → K) (preds : List String) (refs : List (List String)) r st',
      compute_single_pred_multi_ref mk powf rf seg norm preds refs st = .ok (r, st') →
        r.segment_scores = seg ∧ r.normalized = norm ∧
        r.model_path_or_url = st.model_path_or_url ∧ r.lang = st.lang ∧
        st'.model_path_or_url = st.model_path_or_url ∧ st'.lang = st.lang) ∧
    (∀ (rf : List K → K) (preds refs : List (List String)) r st',
      compute_multi_pred_multi_ref mk powf rf seg norm preds refs st = .ok (r, st') →
        r.segment_scores = seg ∧ r.normalized = norm ∧
        r.model_path_or_url = st.model_path_or_url ∧ r.lang = st.lang ∧
        st'.model_path_or_url = st.model_path_or_url ∧ st'.lang = st.lang) := by
  refine ⟨?_, ?_, ?_⟩
  · intro rf preds refs r st' h
    simp only [compute_single_pred_single_ref, Except.ok.injEq, Prod.mk.injEq] at h
    obtain ⟨h1, h2⟩ := h
    rw [← h1, ← h2]
    exact ⟨rfl, rfl, load_scorer_model_path mk st, load_scorer_lang mk st,
      load_scorer_model_path mk st, load_scorer_lang mk st⟩
  · intro rf preds refs r st' h
    simp only [compute_single_pred_multi_ref] at h
    obtain ⟨sc, h1, h2⟩ := except_map_pair_ok _ _ _ _ _ h
    rw [h1, h2]
    exact ⟨rfl, rfl, load_scorer_model_path mk st, load_scorer_lang mk st,
      load_scorer_model_path mk st, load_scorer_lang mk st⟩
  · intro rf preds refs r st' h
    simp only [compute_multi_pred_multi_ref] at h
    obtain ⟨sc, h1, h2⟩ := except_map_pair_ok _ _ _ _ _ h
    rw [h1, h2]
    exact ⟨rfl, rfl, load_scorer_model_path mk st, load_scorer_lang mk st,
      load_scorer_model_path mk st, load_scorer_lang mk st⟩

/-- Witness for C9 at a concrete single-pred/single-ref call. -/
theorem result_record_fields_frame_witness :
    ∃ r st', compute_single_pred_single_ref mkTest powTest none false false
        ["p"] ["r"] stTest = .ok (r, st') ∧
      r.segment_scores = false ∧ r.normalized = false ∧
      r.model_path_or_url = some "model_dir" ∧ r.lang = "en" ∧
      st'.model_path_or_url = some "model_dir" ∧ st'.lang = "en" := by
  have h := (result_record_fields_frame mkTest powTest false false stTest).1
    none ["p"] ["r"] _ _ rfl
  exact ⟨_, _, rfl, h⟩

/-! ### C10 -/

/-- C10: with `segment_scores = false`, non-empty top-level predictions
and references make the corpus-averaging division well defined (the
computation succeeds), while empty top-level input hits the
division-by-zero failure and produces no result. -/
theorem corpus_division_nonzero_or_error {K : Type} [Field K]
    (mk : Option String → String → K → Prism K) (powf : K → K → K)
    (reduce_fn : List K → K) (norm : Bool) (st : PrismMetric K) :
    (∀ (preds : List String) (refs : List (List String)), preds ≠ [] → refs ≠ [] →
      (compute_single_pred_multi_ref mk powf reduce_fn false norm preds refs st).isOk
        = true) ∧
    compute_single_pred_multi_ref mk powf reduce_fn false norm [] [] st =
      .error .zeroDivision ∧
    (∀ (preds refs : List (List String)), preds ≠ [] → refs ≠ [] →
      (compute_multi_pred_multi_ref mk powf reduce_fn false norm preds refs st).isOk
        = true) ∧
    compute_multi_pred_multi_ref mk powf reduce_fn false norm [] [] st =
      .error .zeroDivision := by
  refine ⟨?_, rfl, ?_, rfl⟩
  · intro preds refs hp hr
    have hne := zip_map_length_ne_zero (fun pr =>
      reduce_fn ((load_scorer mk st).1.segScore (List.replicate pr.2.length pr.1) pr.2))
      preds refs hp hr
    simp only [compute_single_pred_multi_ref]
    rw [if_neg hne]
    rfl
  · intro preds refs hp hr
    have hne := zip_map_length_ne_zero (fun pr =>
      reduce_fn (pr.1.map fun pred =>
        reduce_fn ((load_scorer mk st).1.segScore (List.replicate pr.2.length pred) pr.2)))
      preds refs hp hr
    simp only [compute_multi_pred_multi_ref]
    rw [if_neg hne]
    rfl

/-- Witness for C10 at concrete inputs. -/
theorem corpus_division_nonzero_or_error_witness :
    (compute_single_pred_multi_ref mkTest powTest List.sum false false
      ["p"] [["r"]] stTest).isOk = true ∧
    compute_single_pred_multi_ref mkTest powTest List.sum false false
      [] [] stTest = .error .zeroDivision ∧
    (compute_multi_pred_multi_ref mkTest powTest List.sum false false
      [["p"]] [["r"]] stTest).isOk = true ∧
    compute_multi_pred_multi_ref mkTest powTest List.sum false false
      [] [] stTest = .error .zeroDivision := by
  have h := corpus_division_nonzero_or_error mkTest powTest List.sum false stTest
  exact ⟨h.1 ["p"] [["r"]] (by decide) (by decide), h.2.1,
    h.2.2.1 [["p"]] [["r"]] (by decide) (by decide), h.2.2.2⟩

end PrismGen
